import Mathlib

/-!
Verification development for the aquiferx data pipeline and interpolation
engine.  The definitions below are shallow embeddings of the TypeScript
source: CSV rows and column mappings become string association lists
(JavaScript `undefined` field reads are modelled by the empty string, which
is exactly the set of falsy string values the code branches on),
JavaScript numbers become an explicit type `JSNum` separating NaN and the
infinities from finite values (finite values are exact rationals; the
interpolation engine is modelled directly over `ℚ`, where every
intermediate is finite so the code's `isFinite` fallbacks never fire), and
`parseFloat` is modelled after the ECMAScript grammar (sign, `Infinity`,
decimal digits, fraction, exponent; an unparseable prefix yields NaN).
-/

/-- A CSV row or a GeoJSON feature's properties: field name to text value. -/
def Row : Type := List (String × String)

/-- Read a field from a row; an absent field reads as the empty string
(the code only ever branches on truthiness or compares the value, and an
absent field is falsy exactly like the empty string). -/
def rget (r : Row) (k : String) : String := (List.lookup k r).getD ""

/-- Read an entry of a column mapping; an absent entry reads as the empty
string (the code treats an absent and an empty mapping alike: both are
falsy). -/
def mget (m : List (String × String)) (k : String) : String :=
  (List.lookup k m).getD ""

/-- JavaScript `s || d`: the fallback `d` when `s` is the empty string. -/
def orElseStr (s d : String) : String := if s = "" then d else s

/-- JavaScript `String.prototype.split` with a one-character separator,
over the character list. -/
def splitChar (sep : Char) : List Char → List (List Char)
  | [] => [[]]
  | c :: r =>
    let rest := splitChar sep r
    if c = sep then [] :: rest
    else
      match rest with
      | h :: t => (c :: h) :: t
      | [] => [[c]]

/-- JavaScript `s.split(sep)` for a one-character separator. -/
def jsSplit (s : String) (sep : Char) : List String :=
  (splitChar sep s.toList).map (fun l => l.asString)

/-- JavaScript `s.padStart(2, '0')`. -/
def padStart2 (s : String) : String :=
  if 2 ≤ s.length then s else (List.replicate (2 - s.length) '0').asString ++ s

/-- The two-digit-year expansion of `parseDate`: a two-character year is
prefixed with `20`, anything else is kept. -/
def expandYear (s : String) : String := if s.length = 2 then "20" ++ s else s

/-- The Date Normalizer `parseDate` from the import wizard
(src/unnamed/part_002).  `iso` passes a three-part hyphen-separated input
through unchanged; `us`/`us-short` read slash-separated parts as
month/day/year, `eu`/`eu-short` as day/month/year; any input that does not
split into exactly three parts (and any unknown format) is returned
unchanged.  The code's `try`/`catch` never fires: every step is total. -/
def parseDate (dateStr : String) (format : String) : String :=
  if dateStr = "" then ""
  else if format = "iso" then
    (if (jsSplit dateStr '-').length = 3 then dateStr else dateStr)
  else if format = "us" ∨ format = "us-short" then
    (match jsSplit dateStr '/' with
     | [p0, p1, p2] => expandYear p2 ++ "-" ++ padStart2 p0 ++ "-" ++ padStart2 p1
     | _ => dateStr)
  else if format = "eu" ∨ format = "eu-short" then
    (match jsSplit dateStr '/' with
     | [p0, p1, p2] => expandYear p2 ++ "-" ++ padStart2 p1 ++ "-" ++ padStart2 p0
     | _ => dateStr)
  else dateStr

/-- A JavaScript number, separating the non-finite values from finite ones;
finite values are exact rationals. -/
inductive JSNum where
  | nan : JSNum
  | inf : JSNum
  | ninf : JSNum
  | fin : ℚ → JSNum
deriving DecidableEq

/-- JavaScript `isNaN`. -/
def JSNum.isNaN : JSNum → Bool
  | .nan => true
  | _ => false

/-- JavaScript `isFinite`. -/
def JSNum.isFinite : JSNum → Bool
  | .fin _ => true
  | _ => false

/-- Decimal digit test on characters. -/
def isDigitC (c : Char) : Bool := 48 ≤ c.toNat ∧ c.toNat ≤ 57

/-- Numeric value of a string of decimal digits. -/
def digitsVal (cs : List Char) : ℕ := cs.foldl (fun a c => 10 * a + (c.toNat - 48)) 0

/-- Exponent part of a decimal literal: optional sign then digits; a sign
or `e` with no digits contributes exponent zero, matching the
longest-valid-prefix rule of `parseFloat`. -/
def expValOf (cs : List Char) : ℤ :=
  match cs with
  | '+' :: r => (digitsVal (r.takeWhile isDigitC) : ℤ)
  | '-' :: r => -(digitsVal (r.takeWhile isDigitC) : ℤ)
  | r => (digitsVal (r.takeWhile isDigitC) : ℤ)

/-- ECMAScript whitespace skipped by `parseFloat` (the common subset). -/
def jsWhitespace (c : Char) : Bool := c = ' ' ∨ c = '\t' ∨ c = '\n' ∨ c = '\r'

/-- Body of the `parseFloat` model after the sign: the `Infinity` literal,
or an integer part, optional fraction, optional exponent; no digits at all
yields NaN.  Finite values are exact (no rounding), which agrees with
JavaScript on every classification the code performs (NaN, zero,
infinity from the `Infinity` literal). -/
def parseFloatCore (cs : List Char) (sgn : ℚ) : JSNum :=
  if cs.take 8 = "Infinity".toList then (if sgn < 0 then .ninf else .inf)
  else
    let intD := cs.takeWhile isDigitC
    let rest := cs.dropWhile isDigitC
    let fracD := match rest with
      | '.' :: r => r.takeWhile isDigitC
      | _ => []
    let rest2 := match rest with
      | '.' :: r => r.dropWhile isDigitC
      | r => r
    if intD.isEmpty ∧ fracD.isEmpty then .nan
    else
      let mant : ℚ := (digitsVal intD : ℚ) + (digitsVal fracD : ℚ) / (10 : ℚ) ^ fracD.length
      let e : ℤ :=
        match rest2 with
        | 'e' :: r => expValOf r
        | 'E' :: r => expValOf r
        | _ => 0
      .fin (sgn * mant * (10 : ℚ) ^ e)

/-- Model of JavaScript `parseFloat`. -/
def parseFloat (s : String) : JSNum :=
  match s.toList.dropWhile jsWhitespace with
  | '+' :: r => parseFloatCore r 1
  | '-' :: r => parseFloatCore r (-1)
  | r => parseFloatCore r 1

/-- A well as produced by `loadWells` (src/services/dataLoader.ts). -/
structure Well where
  id : String
  name : String
  lat : JSNum
  lng : JSNum
  gse : JSNum
  aquiferId : String
  aquiferName : String
  regionId : String
deriving DecidableEq

/-- A measurement as produced by `loadMeasurements`
(src/services/dataLoader.ts). -/
structure Measurement where
  wellId : String
  wellName : String
  date : String
  wte : JSNum
  aquiferId : String
deriving DecidableEq

/-- Per-row processing of `loadWells`: parse the coordinate fields
(empty fields fall back to the literal `'0'`) and accept the row only when
the well id is non-empty and both coordinates are neither NaN nor zero. -/
def wellOfRow (row : Row) (regionId : String) : Option Well :=
  let wellId := rget row "well_id"
  let wellName := orElseStr (rget row "well_name") wellId
  let lat := parseFloat (orElseStr (rget row "lat") "0")
  let lng := parseFloat (orElseStr (rget row "long") "0")
  let gse := parseFloat (orElseStr (rget row "gse") "0")
  if wellId ≠ "" ∧ lat.isNaN = false ∧ lng.isNaN = false ∧
      lat ≠ JSNum.fin 0 ∧ lng ≠ JSNum.fin 0 then
    some ⟨wellId, wellName, lat, lng, gse,
      rget row "aquifer_id", rget row "aquifer_name", regionId⟩
  else none

/-- The row loop of `loadWells` over already-parsed CSV rows. -/
def loadWellsRows (rows : List Row) (regionId : String) : List Well :=
  rows.filterMap (fun row => wellOfRow row regionId)

/-- Per-row processing of `loadMeasurements`: the water-table elevation
falls back to the literal `'0'` when the field is absent or empty, and the
row is kept only when the well id and date are non-empty and the parsed
elevation is not NaN. -/
def measOfRow (row : Row) : Option Measurement :=
  let wellId := rget row "well_id"
  let wellName := rget row "well_name"
  let date := rget row "date"
  let wte := parseFloat (orElseStr (rget row "wte") "0")
  if wellId ≠ "" ∧ date ≠ "" ∧ wte.isNaN = false then
    some ⟨wellId, wellName, date, wte, rget row "aquifer_id"⟩
  else none

/-- The row loop of `loadMeasurements` over already-parsed CSV rows. -/
def loadMeasurementsRows (rows : List Row) : List Measurement :=
  rows.filterMap measOfRow

/-- An uploaded geometry file as the validator sees it: the properties of
each feature, and the operator-edited column mapping.  Property values are
modelled as strings (the validator immediately stringifies ids). -/
structure GeoFile where
  features : List Row
  mapping : List (String × String)

/-- An uploaded tabular file as the validator sees it: parsed rows and the
operator-edited column mapping. -/
structure CsvFile where
  rows : List Row
  mapping : List (String × String)

/-- The validator's result (`ValidationResult` in src/unnamed/part_002). -/
structure ValidationResult where
  isValid : Bool
  errors : List String
  warnings : List String
  droppedMeasurements : ℕ
deriving DecidableEq

/-- The per-kind canonical column table of `getRequiredColumns`
(src/unnamed/part_002): key, label, required flag. -/
def getRequiredColumns (fileType : String) : List (String × String × Bool) :=
  if fileType = "region" then []
  else if fileType = "aquifer" then
    [("aquifer_id", "Aquifer ID", true), ("aquifer_name", "Aquifer Name", true)]
  else if fileType = "wells" then
    [("well_id", "Well ID", true), ("lat", "Latitude", true),
     ("long", "Longitude", true), ("aquifer_id", "Aquifer ID", false)]
  else if fileType = "waterLevels" then
    [("well_id", "Well ID", true), ("date", "Date", true),
     ("wte", "Water Table Elevation", true), ("aquifer_id", "Aquifer ID", false)]
  else []

/-- The `checkMapping` closure of `validateData`: one error per required
column whose mapping is missing or empty, in table order. -/
def checkMappingErrs (mapping : List (String × String)) (fileType : String) : List String :=
  ((getRequiredColumns fileType).filter (fun c => c.2.2)).filterMap
    (fun c => if mget mapping c.1 = "" then
        some (fileType ++ ": Missing mapping for " ++ c.2.1)
      else none)

/-- The warning emitted when the wells file has no aquifer reference
column. -/
def aqColWarning : String :=
  "Wells file has no aquifer_id column. Point-in-polygon assignment will be attempted."

/-- The summary warning carrying the dropped-measurement count. -/
def dropMsg (n : ℕ) : String :=
  toString n ++ " measurements reference non-existent wells and will be dropped"

/-- The missing-file errors of `validateData`, one per absent input, in
source order. -/
def missingFileErrors (r a w m : Bool) : List String :=
  (if r then [] else ["Region file is required"]) ++
  (if a then [] else ["Aquifer file is required"]) ++
  (if w then [] else ["Wells file is required"]) ++
  (if m then [] else ["Water levels file is required"])

/-- The set of known aquifer identifiers (`aquiferIds` in `validateData`):
the non-empty mapped ids of the aquifer features (a set in the source; the
list here is only ever used through membership). -/
def aquiferIdList (aq : GeoFile) : List String :=
  aq.features.filterMap (fun f =>
    if rget f (mget aq.mapping "aquifer_id") = "" then none
    else some (rget f (mget aq.mapping "aquifer_id")))

/-- The fatal errors of the per-well loop of `validateData`: one error per
well whose declared aquifer reference is not a known aquifer id. -/
def wellAquiferErrs (aq : GeoFile) (ws : CsvFile) : List String :=
  ws.rows.filterMap (fun w =>
    if mget ws.mapping "aquifer_id" ≠ "" ∧ rget w (mget ws.mapping "aquifer_id") ≠ "" ∧
        rget w (mget ws.mapping "aquifer_id") ∉ aquiferIdList aq then
      some ("Well " ++ rget w (mget ws.mapping "well_id") ++
        " references non-existent aquifer " ++ rget w (mget ws.mapping "aquifer_id"))
    else none)

/-- The accepted well identifiers (`wellIds` in `validateData`): the
non-empty mapped ids of the wells rows. -/
def acceptedWellIds (ws : CsvFile) : List String :=
  ws.rows.filterMap (fun w =>
    if rget w (mget ws.mapping "well_id") = "" then none
    else some (rget w (mget ws.mapping "well_id")))

/-- The dropped-measurement count of `validateData`: the number of
measurement rows whose well reference is not an accepted well id. -/
def droppedCount (ws wl : CsvFile) : ℕ :=
  (wl.rows.filter (fun m =>
    decide (rget m (mget wl.mapping "well_id") ∉ acceptedWellIds ws))).length

/-- Stages 2 to 4 of `validateData`, reached once all four files are
present: required-mapping check (short-circuiting), then the referential
checks (known aquifer ids from the aquifer features, per-well aquifer
references, accepted well ids, dropped-measurement count over the
measurement rows).  Error strings interpolate the row values; a missing
value is rendered as the empty string. -/
def validateFull (aq : GeoFile) (ws wl : CsvFile) : ValidationResult :=
  let mapErrs := checkMappingErrs aq.mapping "aquifer" ++
    checkMappingErrs ws.mapping "wells" ++ checkMappingErrs wl.mapping "waterLevels"
  if mapErrs.isEmpty then
    ⟨(wellAquiferErrs aq ws).isEmpty, wellAquiferErrs aq ws,
      (if mget ws.mapping "aquifer_id" = "" then [aqColWarning] else []) ++
        (if droppedCount ws wl = 0 then [] else [dropMsg (droppedCount ws wl)]),
      droppedCount ws wl⟩
  else ⟨false, mapErrs, [], 0⟩

/-- The Cross-Reference Validator `validateData` (src/unnamed/part_002):
stage 1 fails with one error per missing input file and skips everything
else; otherwise the mapping and referential stages run. -/
def validateData (rf af : Option GeoFile) (wf mf : Option CsvFile) : ValidationResult :=
  let fe := missingFileErrors rf.isSome af.isSome wf.isSome mf.isSome
  if fe.isEmpty then
    match af, wf, mf with
    | some aq, some ws, some wl => validateFull aq ws wl
    | _, _, _ => ⟨true, [], [], 0⟩
  else ⟨false, fe, [], 0⟩

/-- A row of the canonical wells table produced by `processData`. -/
structure CanonWell where
  well_id : String
  lat : String
  long : String
  aquifer_id : String
deriving DecidableEq

/-- A row of the canonical measurements table produced by `processData`. -/
structure CanonMeas where
  well_id : String
  date : String
  wte : String
  aquifer_id : String
deriving DecidableEq

/-- The wells stage of the Canonical Exporter `processData`
(src/unnamed/part_002): project each row through the mapping, then drop
rows with an empty id, latitude or longitude. -/
def processedWells (ws : CsvFile) : List CanonWell :=
  (ws.rows.map (fun w =>
    (⟨rget w (mget ws.mapping "well_id"),
      rget w (mget ws.mapping "lat"),
      rget w (mget ws.mapping "long"),
      if mget ws.mapping "aquifer_id" = "" then ""
      else rget w (mget ws.mapping "aquifer_id")⟩ : CanonWell))).filter
    (fun w => decide (w.well_id ≠ "" ∧ w.lat ≠ "" ∧ w.long ≠ ""))

/-- The measurements stage of the Canonical Exporter `processData`:
keep only rows whose well reference is among the canonical wells' ids,
then project through the mapping, normalizing the date with `parseDate`. -/
def processedWaterLevels (wl ws : CsvFile) (dateFormat : String) : List CanonMeas :=
  let ids := (processedWells ws).map (fun w => w.well_id)
  (wl.rows.filter (fun m => decide (rget m (mget wl.mapping "well_id") ∈ ids))).map
    (fun m =>
      (⟨rget m (mget wl.mapping "well_id"),
        parseDate (rget m (mget wl.mapping "date")) dateFormat,
        rget m (mget wl.mapping "wte"),
        if mget wl.mapping "aquifer_id" = "" then ""
        else rget m (mget wl.mapping "aquifer_id")⟩ : CanonMeas))

/-- Indexing into a rational sample list; out-of-range reads default to 0
(the embedded code never reads out of range on well-formed input). -/
def nthQ (l : List ℚ) (i : ℕ) : ℚ := l.getD i 0

/-- The secant slope `delta[i]` shared by both strategies: zero-length
intervals are defined to have slope 0. -/
def deltaQ (x y : List ℚ) (i : ℕ) : ℚ :=
  if nthQ x (i + 1) - nthQ x i = 0 then 0
  else (nthQ y (i + 1) - nthQ y i) / (nthQ x (i + 1) - nthQ x i)

/-- The interval-location loop shared by both strategies:
`let i = 0; while (i < n - 2 && x[i + 1] < tx) i++;`, written with the
loop counter and a fuel bound on the number of iterations. -/
def findIntervalAux (x : List ℚ) (n : ℕ) (tx : ℚ) : ℕ → ℕ → ℕ
  | 0, i => i
  | fuel + 1, i =>
    if i < n - 2 ∧ nthQ x (i + 1) < tx then findIntervalAux x n tx fuel (i + 1) else i

/-- The interval index selected for a target by both strategies; `n` bounds
the iteration count (the loop runs at most `n - 2` steps). -/
def findInterval (x : List ℚ) (n : ℕ) (tx : ℚ) : ℕ := findIntervalAux x n tx n 0

/-- The tangent `m[i]` of Strategy A (src/unnamed/part_000): one-sided
secants at the boundaries, zero when adjacent secants disagree in sign or
vanish, otherwise the weighted harmonic mean with its zero-denominator
guard.  Over `ℚ` every value is finite, so the `isFinite` fallbacks of the
source are identities. -/
def tangentA (x y : List ℚ) (n : ℕ) (i : ℕ) : ℚ :=
  if i = 0 then deltaQ x y 0
  else if i = n - 1 then deltaQ x y (n - 2)
  else if deltaQ x y (i - 1) * deltaQ x y i ≤ 0 then 0
  else
    let w1 := 2 * (nthQ x (i + 1) - nthQ x i) + (nthQ x i - nthQ x (i - 1))
    let w2 := (nthQ x (i + 1) - nthQ x i) + 2 * (nthQ x i - nthQ x (i - 1))
    let denom := w1 / deltaQ x y (i - 1) + w2 / deltaQ x y i
    if denom = 0 then 0 else (w1 + w2) / denom

/-- The cubic Hermite basis block of Strategy A: `h00 y[i] +
h10 h[i] m[i] + h01 y[i+1] + h11 h[i] m[i+1]` on the normalized
parameter. -/
def hermiteBasisVal (yi yi1 hi mi mi1 t : ℚ) : ℚ :=
  (2 * (t * t * t) - 3 * (t * t) + 1) * yi + ((t * t * t) - 2 * (t * t) + t) * hi * mi +
    (-2 * (t * t * t) + 3 * (t * t)) * yi1 + ((t * t * t) - (t * t)) * hi * mi1

/-- Per-target evaluation of Strategy A: clamp at the ends, locate the
interval, guard zero-length intervals, then the cubic Hermite basis. -/
def hermiteAt (x y : List ℚ) (n : ℕ) (m : ℕ → ℚ) (tx : ℚ) : ℚ :=
  if tx ≤ nthQ x 0 then nthQ y 0
  else if nthQ x (n - 1) ≤ tx then nthQ y (n - 1)
  else
    let i := findInterval x n tx
    let hi := nthQ x (i + 1) - nthQ x i
    if hi = 0 then nthQ y i
    else hermiteBasisVal (nthQ y i) (nthQ y (i + 1)) hi (m i) (m (i + 1))
      ((tx - nthQ x i) / hi)

/-- Strategy A, `interpolatePCHIP` of src/unnamed/part_000 (the monotone
Hermite spline), over exact rationals. -/
def interpolatePCHIP_A (x y targetX : List ℚ) : List ℚ :=
  let n := x.length
  if n < 2 then targetX.map (fun _ => if n = 1 then nthQ y 0 else 0)
  else targetX.map (fun tx => hermiteAt x y n (tangentA x y n) tx)

/-- The sub-diagonal `a[i]` of Strategy B's tridiagonal system: `h[i-1]`
on interior rows, the initial 0 elsewhere. -/
def triA (x : List ℚ) (n : ℕ) (i : ℕ) : ℚ :=
  if 1 ≤ i ∧ i ≤ n - 2 then nthQ x i - nthQ x (i - 1) else 0

/-- The super-diagonal `c[i]`: `h[i]` on interior rows, 0 elsewhere. -/
def triC (x : List ℚ) (n : ℕ) (i : ℕ) : ℚ :=
  if 1 ≤ i ∧ i ≤ n - 2 then nthQ x (i + 1) - nthQ x i else 0

/-- The initial diagonal `b`: 1 at both endpoints (the natural boundary
condition), `2(h[i-1]+h[i])` on interior rows. -/
def triBInit (x : List ℚ) (n : ℕ) : List ℚ :=
  (List.range n).map (fun i =>
    if i = 0 ∨ i = n - 1 then 1
    else if i ≤ n - 2 then
      2 * ((nthQ x i - nthQ x (i - 1)) + (nthQ x (i + 1) - nthQ x i))
    else 0)

/-- The initial right-hand side `d`: `6(delta[i]-delta[i-1])` on interior
rows, 0 elsewhere. -/
def triDInit (x y : List ℚ) (n : ℕ) : List ℚ :=
  (List.range n).map (fun i =>
    if 1 ≤ i ∧ i ≤ n - 2 then 6 * (deltaQ x y i - deltaQ x y (i - 1)) else 0)

/-- Forward elimination of the Thomas solve: rows `1` to `n-1` in order,
skipping any row whose pivot `b[i-1]` is exactly zero. -/
def fwdPass (x : List ℚ) (n : ℕ) (b d : List ℚ) : List ℚ × List ℚ :=
  (List.range' 1 (n - 1)).foldl (fun bd i =>
    if nthQ bd.1 (i - 1) = 0 then bd
    else
      let w := triA x n i / nthQ bd.1 (i - 1)
      (bd.1.set i (nthQ bd.1 i - w * triC x n (i - 1)),
       bd.2.set i (nthQ bd.2 i - w * nthQ bd.2 (i - 1)))) (b, d)

/-- Back substitution of the Thomas solve: second derivatives start at 0,
rows with a zero diagonal are skipped. -/
def backPass (x : List ℚ) (n : ℕ) (b d : List ℚ) : List ℚ :=
  let m0 : List ℚ := List.replicate n 0
  let m1 := if nthQ b (n - 1) = 0 then m0
    else m0.set (n - 1) (nthQ d (n - 1) / nthQ b (n - 1))
  (List.range (n - 1)).reverse.foldl (fun m i =>
    if nthQ b i = 0 then m
    else m.set i ((nthQ d i - triC x n i * nthQ m (i + 1)) / nthQ b i)) m1

/-- The second derivatives of the natural cubic spline, by the tridiagonal
solve of Strategy B. -/
def secondDerivs (x y : List ℚ) (n : ℕ) : List ℚ :=
  let bd := fwdPass x n (triBInit x n) (triDInit x y n)
  backPass x n bd.1 bd.2

/-- Per-target evaluation of Strategy B for three or more samples: clamp,
locate the interval, guard zero-length intervals, then the closed-form
cubic in `t = tx - x[i]`. -/
def splineEvalAt (x y : List ℚ) (n : ℕ) (m : List ℚ) (tx : ℚ) : ℚ :=
  if tx ≤ nthQ x 0 then nthQ y 0
  else if nthQ x (n - 1) ≤ tx then nthQ y (n - 1)
  else
    let i := findInterval x n tx
    let hi := nthQ x (i + 1) - nthQ x i
    if hi = 0 then nthQ y i
    else
      let t := tx - nthQ x i
      let aC := (nthQ m (i + 1) - nthQ m i) / (6 * hi)
      let bC := nthQ m i / 2
      let cC := deltaQ x y i - hi * (2 * nthQ m i + nthQ m (i + 1)) / 6
      aC * t * t * t + bC * t * t + cC * t + nthQ y i

/-- Strategy B, `interpolatePCHIP` of src/utils/interpolation.ts (the
natural cubic spline): exact linear interpolation for two samples, the
tridiagonal solve for three or more. -/
def interpolatePCHIP_B (x y targetX : List ℚ) : List ℚ :=
  let n := x.length
  if n < 2 then targetX.map (fun _ => if n = 1 then nthQ y 0 else 0)
  else if n = 2 then
    let slope := (nthQ y 1 - nthQ y 0) / (nthQ x 1 - nthQ x 0)
    targetX.map (fun tx =>
      if tx ≤ nthQ x 0 then nthQ y 0
      else if nthQ x 1 ≤ tx then nthQ y 1
      else nthQ y 0 + slope * (tx - nthQ x 0))
  else
    let m := secondDerivs x y n
    targetX.map (fun tx => splineEvalAt x y n m tx)

/-- Strict increase of the first `n` abscissas, in the bounded form that
is decidable on concrete inputs. -/
def StrictIncrOn (x : List ℚ) (n : ℕ) : Prop :=
  ∀ j < n - 1, nthQ x j < nthQ x (j + 1)

/-! ## Helper lemmas -/

/-- `StrictIncrOn` is decidable, so concrete witnesses can be checked. -/
instance decStrictIncrOn (x : List ℚ) (n : ℕ) : Decidable (StrictIncrOn x n) :=
  inferInstanceAs (Decidable (∀ j < n - 1, nthQ x j < nthQ x (j + 1)))

/-- Adjacent strict increase extends to any pair of indices below `n`. -/
theorem nthQ_mono (x : List ℚ) (n : ℕ) (hm : StrictIncrOn x n) :
    ∀ j k, j < k → k < n → nthQ x j < nthQ x k := by
  intro j k
  induction k with
  | zero => omega
  | succ k ih =>
    intro hjk hk
    rcases Nat.lt_succ_iff_lt_or_eq.mp hjk with h | h
    · exact lt_trans (ih h (by omega)) (hm k (by omega))
    · rw [h]
      exact hm k (by omega)

/-- Splitting the empty string yields the single empty part. -/
theorem jsSplit_empty (sep : Char) : jsSplit "" sep = [""] := rfl

/-- `parseDate` leaves its input unchanged under the `iso` format. -/
theorem parseDate_iso (s : String) : parseDate s "iso" = s := by
  by_cases hs : s = ""
  · subst hs; rfl
  · simp [parseDate, hs]

/-! ## C4 : the Date Normalizer -/

/-- C4.  For every input splitting on `/` into exactly three parts, the
`us`/`us-short` formats read them as month/day/year and the
`eu`/`eu-short` formats as day/month/year, zero-padding month and day to
two digits and expanding a two-digit year with the prefix `20`; `iso`
returns any three-part hyphen-separated input unchanged; inputs that do
not split into exactly three parts are returned unchanged; and the two
concrete examples hold. -/
theorem parseDate_format_spec (s p0 p1 p2 : String) :
    (jsSplit s '/' = [p0, p1, p2] →
      parseDate s "us" = expandYear p2 ++ "-" ++ padStart2 p0 ++ "-" ++ padStart2 p1 ∧
      parseDate s "us-short" = expandYear p2 ++ "-" ++ padStart2 p0 ++ "-" ++ padStart2 p1 ∧
      parseDate s "eu" = expandYear p2 ++ "-" ++ padStart2 p1 ++ "-" ++ padStart2 p0 ∧
      parseDate s "eu-short" = expandYear p2 ++ "-" ++ padStart2 p1 ++ "-" ++ padStart2 p0) ∧
    ((jsSplit s '-').length = 3 → parseDate s "iso" = s) ∧
    ((jsSplit s '/').length ≠ 3 →
      parseDate s "us" = s ∧ parseDate s "us-short" = s ∧
      parseDate s "eu" = s ∧ parseDate s "eu-short" = s) ∧
    ((jsSplit s '-').length ≠ 3 → parseDate s "iso" = s) ∧
    (parseDate "1/5/09" "us-short" = "2009-01-05" ∧
      parseDate "15/1/09" "eu-short" = "2009-01-15") := by
  refine ⟨?_, fun _ => parseDate_iso s, ?_, fun _ => parseDate_iso s, by decide⟩
  · intro hsplit
    have hs : s ≠ "" := by
      intro h
      rw [h, jsSplit_empty] at hsplit
      simp at hsplit
    refine ⟨?_, ?_, ?_, ?_⟩ <;> simp [parseDate, hs, hsplit]
  · intro hlen
    by_cases hs : s = ""
    · subst hs
      exact ⟨rfl, rfl, rfl, rfl⟩
    · refine ⟨?_, ?_, ?_, ?_⟩ <;>
      · simp [parseDate, hs]
        split
        · rename_i a b c heq
          exact absurd (by rw [heq]; rfl : (jsSplit s '/').length = 3) hlen
        · rfl

/-- Witness for C4 at the concrete input `1/5/09`. -/
theorem parseDate_format_spec_witness :
    parseDate "1/5/09" "us" =
      expandYear "09" ++ "-" ++ padStart2 "1" ++ "-" ++ padStart2 "5" :=
  (((parseDate_format_spec "1/5/09" "1" "5" "09").1 (by decide))).1

/-- Unfolding of `measOfRow` with its lets resolved. -/
theorem measOfRow_eq (row : Row) : measOfRow row =
    (if rget row "well_id" ≠ "" ∧ rget row "date" ≠ "" ∧
        (parseFloat (orElseStr (rget row "wte") "0")).isNaN = false then
      some ⟨rget row "well_id", rget row "well_name", rget row "date",
        parseFloat (orElseStr (rget row "wte") "0"), rget row "aquifer_id"⟩
    else none) := rfl

/-- Unfolding of `wellOfRow` with its lets resolved. -/
theorem wellOfRow_eq (row : Row) (rid : String) : wellOfRow row rid =
    (if rget row "well_id" ≠ "" ∧
        (parseFloat (orElseStr (rget row "lat") "0")).isNaN = false ∧
        (parseFloat (orElseStr (rget row "long") "0")).isNaN = false ∧
        parseFloat (orElseStr (rget row "lat") "0") ≠ JSNum.fin 0 ∧
        parseFloat (orElseStr (rget row "long") "0") ≠ JSNum.fin 0 then
      some ⟨rget row "well_id", orElseStr (rget row "well_name") (rget row "well_id"),
        parseFloat (orElseStr (rget row "lat") "0"),
        parseFloat (orElseStr (rget row "long") "0"),
        parseFloat (orElseStr (rget row "gse") "0"),
        rget row "aquifer_id", rget row "aquifer_name", rid⟩
    else none) := rfl

/-- Evaluation of the `parseFloat` model on the fallback literal `0`. -/
theorem parseFloat_zero : parseFloat "0" = JSNum.fin 0 := by
  have h : parseFloat "0" =
      JSNum.fin (1 * (((0 : ℕ) : ℚ) + ((0 : ℕ) : ℚ) / (10 : ℚ) ^ (0 : ℕ)) *
        (10 : ℚ) ^ (0 : ℤ)) := rfl
  rw [h]
  norm_num

/-- Evaluation of the `parseFloat` model on the `Infinity` literal. -/
theorem parseFloat_inf : parseFloat "Infinity" = JSNum.inf := rfl

/-! ## C10 : measurement rows with an empty elevation -/

/-- C10.  A measurement row whose `wte` field is absent or empty is kept
with elevation 0 (provided its well id and date are non-empty), and a row
is excluded exactly when its well id is empty, its date is empty, or its
non-empty `wte` text parses to NaN. -/
theorem measOfRow_empty_wte_spec (row : Row) :
    (rget row "wte" = "" → rget row "well_id" ≠ "" → rget row "date" ≠ "" →
      measOfRow row = some ⟨rget row "well_id", rget row "well_name",
        rget row "date", JSNum.fin 0, rget row "aquifer_id"⟩) ∧
    (measOfRow row = none ↔
      rget row "well_id" = "" ∨ rget row "date" = "" ∨
      (rget row "wte" ≠ "" ∧ (parseFloat (rget row "wte")).isNaN = true)) := by
  have key : measOfRow row = none ↔
      ¬(rget row "well_id" ≠ "" ∧ rget row "date" ≠ "" ∧
        (parseFloat (orElseStr (rget row "wte") "0")).isNaN = false) := by
    rw [measOfRow_eq]
    split_ifs with hc
    · simp [hc]
    · simp [hc]
  constructor
  · intro hwte hid hdate
    rw [measOfRow_eq, hwte, show orElseStr "" "0" = "0" from rfl, parseFloat_zero,
      if_pos ⟨hid, hdate, rfl⟩]
  · by_cases hw : rget row "wte" = ""
    · rw [key, hw, show orElseStr "" "0" = "0" from rfl, parseFloat_zero]
      simp [JSNum.isNaN]
      tauto
    · rw [key, show orElseStr (rget row "wte") "0" = rget row "wte" from by
        simp [orElseStr, hw]]
      cases hb : (parseFloat (rget row "wte")).isNaN <;> simp [hb, hw] <;> tauto

/-- Witness for C10: a row with no `wte` field at all is stored with
elevation 0. -/
theorem measOfRow_empty_wte_witness :
    measOfRow [("well_id", "w"), ("date", "2020-01-01")] =
      some ⟨"w", "", "2020-01-01", JSNum.fin 0, ""⟩ :=
  (measOfRow_empty_wte_spec [("well_id", "w"), ("date", "2020-01-01")]).1
    rfl (by decide) (by decide)

/-! ## C9 : coordinates of accepted wells -/

/-- Counterexample to C9 as stated: a wells row whose latitude and
longitude texts are `Infinity` passes the NaN and zero checks of
`loadWells`, so a well with non-finite coordinates is accepted into the
result. -/
theorem loadWells_accepts_infinite_latitude :
    ¬ ∀ w ∈ loadWellsRows
        [[("well_id", "W1"), ("lat", "Infinity"), ("long", "Infinity"), ("gse", "Infinity")]]
        "r", w.lat.isFinite = true ∧ w.lng.isFinite = true := by decide

/-- C9 as amended: every well accepted by `loadWells` has latitude and
longitude that are non-zero and not NaN (finiteness is not checked by the
code). -/
theorem loadWells_coords_nonzero_nonNaN (rows : List Row) (rid : String) (w : Well)
    (hw : w ∈ loadWellsRows rows rid) :
    w.lat.isNaN = false ∧ w.lng.isNaN = false ∧
    w.lat ≠ JSNum.fin 0 ∧ w.lng ≠ JSNum.fin 0 := by
  rcases List.mem_filterMap.mp hw with ⟨row, _, hrow⟩
  rw [wellOfRow_eq] at hrow
  split_ifs at hrow with hc
  cases Option.some.inj hrow
  exact ⟨hc.2.1, hc.2.2.1, hc.2.2.2.1, hc.2.2.2.2⟩

/-- Witness for the amended C9 at a concrete accepted well. -/
theorem loadWells_coords_witness :
    JSNum.inf.isNaN = false ∧ JSNum.inf.isNaN = false ∧
    JSNum.inf ≠ JSNum.fin 0 ∧ JSNum.inf ≠ JSNum.fin 0 :=
  loadWells_coords_nonzero_nonNaN
    [[("well_id", "W1"), ("lat", "Infinity"), ("long", "Infinity"), ("gse", "Infinity")]] "r"
    ⟨"W1", "W1", JSNum.inf, JSNum.inf, JSNum.inf, "", "", "r"⟩ (by decide)

/-! ## C8 : referential integrity of the canonical export -/

/-- C8.  Every row of the canonical measurements table references a well id
present in the canonical wells table (which drops wells with an empty id,
latitude or longitude), and its date is the Date Normalizer's output on the
source date value. -/
theorem processed_measurements_ref (ws wl : CsvFile) (fmt : String) (r : CanonMeas)
    (hr : r ∈ processedWaterLevels wl ws fmt) :
    r.well_id ∈ (processedWells ws).map (fun w => w.well_id) ∧
    ∃ src ∈ wl.rows, r.date = parseDate (rget src (mget wl.mapping "date")) fmt := by
  simp only [processedWaterLevels] at hr
  rcases List.mem_map.mp hr with ⟨m, hm, rfl⟩
  rcases List.mem_filter.mp hm with ⟨hmem, hpred⟩
  exact ⟨of_decide_eq_true hpred, m, hmem, rfl⟩

/-- Witness for C8 on a one-row dataset. -/
theorem processed_measurements_ref_witness :
    ("w1" : String) ∈ (processedWells ⟨[[("id", "w1"), ("la", "1"), ("lo", "2")]],
        [("well_id", "id"), ("lat", "la"), ("long", "lo")]⟩).map (fun w => w.well_id) ∧
    ∃ src ∈ ([[("wid", "w1"), ("d", "1/5/09")]] : List Row),
      ("2009-01-05" : String) =
        parseDate (rget src (mget [("well_id", "wid"), ("date", "d"), ("wte", "w")] "date"))
          "us-short" :=
  processed_measurements_ref
    ⟨[[("id", "w1"), ("la", "1"), ("lo", "2")]],
      [("well_id", "id"), ("lat", "la"), ("long", "lo")]⟩
    ⟨[[("wid", "w1"), ("d", "1/5/09")]],
      [("well_id", "wid"), ("date", "d"), ("wte", "w")]⟩
    "us-short" ⟨"w1", "2009-01-05", "", ""⟩ (by decide)

/-! ## C5 : Strategy B with two samples is exactly linear -/

/-- C5.  With exactly two samples, Strategy B returns the exact linear
interpolant at every target strictly between the abscissas. -/
theorem strategyB_two_linear (x y : List ℚ) (t : ℚ) (hx : x.length = 2)
    (hy : y.length = 2) (h0 : nthQ x 0 < t) (h1 : t < nthQ x 1) :
    interpolatePCHIP_B x y [t] =
      [nthQ y 0 + (nthQ y 1 - nthQ y 0) / (nthQ x 1 - nthQ x 0) * (t - nthQ x 0)] := by
  simp only [interpolatePCHIP_B, hx]
  norm_num
  rw [if_neg (not_le.mpr h0), if_neg (not_le.mpr h1)]

/-- Witness for C5: the scenario `x=[0,10], y=[0,100]`, target 5 returns
exactly 50. -/
theorem strategyB_two_linear_witness : interpolatePCHIP_B [0, 10] [0, 100] [5] = [50] := by
  have h := strategyB_two_linear [0, 10] [0, 100] 5 rfl rfl (by decide) (by decide)
  rw [h, show nthQ [(0 : ℚ), 100] 0 = 0 from by decide,
    show nthQ [(0 : ℚ), 100] 1 = 100 from by decide,
    show nthQ [(0 : ℚ), 10] 0 = 0 from by decide,
    show nthQ [(0 : ℚ), 10] 1 = 10 from by decide]
  norm_num

/-! ## C2 : exact boundary clamping for both strategies -/

/-- C2.  For both strategies, with at least two strictly increasing
samples, a target at or below `x[0]` returns exactly `y[0]` and a target
at or above `x[n-1]` returns exactly `y[n-1]`: the clamp happens before
any arithmetic, so the endpoint ordinate is returned verbatim. -/
theorem interp_boundary_clamp (x y : List ℚ) (t : ℚ) (hn : 2 ≤ x.length)
    (hy : y.length = x.length) (hmono : StrictIncrOn x x.length) :
    (t ≤ nthQ x 0 →
      interpolatePCHIP_A x y [t] = [nthQ y 0] ∧
      interpolatePCHIP_B x y [t] = [nthQ y 0]) ∧
    (nthQ x (x.length - 1) ≤ t →
      interpolatePCHIP_A x y [t] = [nthQ y (x.length - 1)] ∧
      interpolatePCHIP_B x y [t] = [nthQ y (x.length - 1)]) := by
  have hlast : nthQ x 0 < nthQ x (x.length - 1) :=
    nthQ_mono x x.length hmono 0 (x.length - 1) (by omega) (by omega)
  have hA : ∀ u : ℚ, interpolatePCHIP_A x y [u] =
      [hermiteAt x y x.length (tangentA x y x.length) u] := by
    intro u
    simp only [interpolatePCHIP_A]
    rw [if_neg (by omega)]
    rfl
  have hB : ∀ u : ℚ, interpolatePCHIP_B x y [u] =
      if x.length = 2 then
        [if u ≤ nthQ x 0 then nthQ y 0
         else if nthQ x 1 ≤ u then nthQ y 1
         else nthQ y 0 + (nthQ y 1 - nthQ y 0) / (nthQ x 1 - nthQ x 0) * (u - nthQ x 0)]
      else [splineEvalAt x y x.length (secondDerivs x y x.length) u] := by
    intro u
    simp only [interpolatePCHIP_B]
    rw [if_neg (by omega)]
    by_cases h2 : x.length = 2
    · rw [if_pos h2, if_pos h2]
      rfl
    · rw [if_neg h2, if_neg h2]
      rfl
  constructor
  · intro ht
    refine ⟨?_, ?_⟩
    · rw [hA, hermiteAt, if_pos ht]
    · rw [hB]
      by_cases h2 : x.length = 2
      · rw [if_pos h2, if_pos ht]
      · rw [if_neg h2, splineEvalAt, if_pos ht]
  · intro ht
    have hnt : ¬ t ≤ nthQ x 0 := not_le.mpr (lt_of_lt_of_le hlast ht)
    refine ⟨?_, ?_⟩
    · rw [hA, hermiteAt, if_neg hnt, if_pos ht]
    · rw [hB]
      by_cases h2 : x.length = 2
      · have h1 : nthQ x 1 ≤ t := by
          rw [h2] at ht
          exact ht
        rw [if_pos h2, if_neg hnt, if_pos h1, h2]
      · rw [if_neg h2, splineEvalAt, if_neg hnt, if_pos ht]

/-- Witness for C2 on a three-sample input, at one target on each side. -/
theorem interp_boundary_clamp_witness :
    interpolatePCHIP_A [0, 1, 2] [5, 6, 7] [-1] = [5] ∧
    interpolatePCHIP_B [0, 1, 2] [5, 6, 7] [-1] = [5] ∧
    interpolatePCHIP_A [0, 1, 2] [5, 6, 7] [9] = [7] ∧
    interpolatePCHIP_B [0, 1, 2] [5, 6, 7] [9] = [7] := by
  have h1 := (interp_boundary_clamp [0, 1, 2] [5, 6, 7] (-1) (by decide) rfl
    (by decide)).1 (by decide)
  have h2 := (interp_boundary_clamp [0, 1, 2] [5, 6, 7] 9 (by decide) rfl
    (by decide)).2 (by decide)
  exact ⟨h1.1, h1.2, h2.1, h2.2⟩

/-- Character data of a string concatenation. -/
theorem string_data_append (a b : String) : (a ++ b).data = a.data ++ b.data := by
  cases a
  cases b
  rfl

/-- The dropped-measurement summary warning never collides with the
missing-aquifer-column warning: they end in different characters. -/
theorem dropMsg_ne_aqColWarning (n : ℕ) : dropMsg n ≠ aqColWarning := by
  intro h
  have hd : (dropMsg n).data.getLast? = aqColWarning.data.getLast? := by rw [h]
  rw [dropMsg, string_data_append,
    List.getLast?_append_of_ne_nil _ (by decide)] at hd
  revert hd
  decide

/-- The referential stage of `validateData`: once the three required
mappings check out, the validator returns the record built from the
per-well aquifer errors, accepted well ids, and dropped count. -/
theorem validateFull_eq (aq : GeoFile) (ws wl : CsvFile)
    (hm1 : checkMappingErrs aq.mapping "aquifer" = [])
    (hm2 : checkMappingErrs ws.mapping "wells" = [])
    (hm3 : checkMappingErrs wl.mapping "waterLevels" = []) :
    validateFull aq ws wl =
      ⟨(wellAquiferErrs aq ws).isEmpty, wellAquiferErrs aq ws,
        (if mget ws.mapping "aquifer_id" = "" then [aqColWarning] else []) ++
          (if droppedCount ws wl = 0 then [] else [dropMsg (droppedCount ws wl)]),
        droppedCount ws wl⟩ := by
  simp only [validateFull]
  rw [hm1, hm2, hm3]
  rfl

/-! ## C1 : the validator's count, summary warning, and validity flag -/

/-- C1.  With all four files present and every required mapping non-empty,
`validateData` reports exactly the number of measurement rows whose well
reference is not among the accepted well identifiers (`acceptedWellIds`:
the non-empty ids; under the stage hypotheses the required fields are
mapped), emits the summary warning carrying that count exactly once when
it is positive, and is invalid precisely when at least one fatal error was
accumulated. -/
theorem validator_result_spec (rf aq : GeoFile) (ws wl : CsvFile)
    (h1 : mget aq.mapping "aquifer_id" ≠ "") (h2 : mget aq.mapping "aquifer_name" ≠ "")
    (h3 : mget ws.mapping "well_id" ≠ "") (h4 : mget ws.mapping "lat" ≠ "")
    (h5 : mget ws.mapping "long" ≠ "") (h6 : mget wl.mapping "well_id" ≠ "")
    (h7 : mget wl.mapping "date" ≠ "") (h8 : mget wl.mapping "wte" ≠ "") :
    (validateData (some rf) (some aq) (some ws) (some wl)).droppedMeasurements =
      (wl.rows.filter (fun m =>
        decide (rget m (mget wl.mapping "well_id") ∉ acceptedWellIds ws))).length ∧
    (0 < (validateData (some rf) (some aq) (some ws) (some wl)).droppedMeasurements →
      (validateData (some rf) (some aq) (some ws) (some wl)).warnings.count
        (dropMsg (validateData (some rf) (some aq) (some ws)
          (some wl)).droppedMeasurements) = 1) ∧
    ((validateData (some rf) (some aq) (some ws) (some wl)).isValid = false ↔
      (validateData (some rf) (some aq) (some ws) (some wl)).errors ≠ []) := by
  have hm1 : checkMappingErrs aq.mapping "aquifer" = [] := by
    simp [checkMappingErrs, getRequiredColumns, h1, h2]
  have hm2 : checkMappingErrs ws.mapping "wells" = [] := by
    simp [checkMappingErrs, getRequiredColumns, h3, h4, h5]
  have hm3 : checkMappingErrs wl.mapping "waterLevels" = [] := by
    simp [checkMappingErrs, getRequiredColumns, h6, h7, h8]
  have hres : validateData (some rf) (some aq) (some ws) (some wl) =
      ⟨(wellAquiferErrs aq ws).isEmpty, wellAquiferErrs aq ws,
        (if mget ws.mapping "aquifer_id" = "" then [aqColWarning] else []) ++
          (if droppedCount ws wl = 0 then [] else [dropMsg (droppedCount ws wl)]),
        droppedCount ws wl⟩ := by
    have hv : validateData (some rf) (some aq) (some ws) (some wl) =
        validateFull aq ws wl := rfl
    rw [hv]
    exact validateFull_eq aq ws wl hm1 hm2 hm3
  have hdrop : (validateData (some rf) (some aq) (some ws)
      (some wl)).droppedMeasurements = droppedCount ws wl := by rw [hres]
  have hwarn : (validateData (some rf) (some aq) (some ws) (some wl)).warnings =
      (if mget ws.mapping "aquifer_id" = "" then [aqColWarning] else []) ++
        (if droppedCount ws wl = 0 then [] else [dropMsg (droppedCount ws wl)]) := by
    rw [hres]
  have hvalid : (validateData (some rf) (some aq) (some ws) (some wl)).isValid =
      (wellAquiferErrs aq ws).isEmpty := by rw [hres]
  have herr : (validateData (some rf) (some aq) (some ws) (some wl)).errors =
      wellAquiferErrs aq ws := by rw [hres]
  refine ⟨by rw [hdrop]; rfl, ?_, ?_⟩
  · intro hD
    rw [hdrop] at hD
    rw [hdrop, hwarn, if_neg (by omega : ¬droppedCount ws wl = 0), List.count_append]
    have h1 : List.count (dropMsg (droppedCount ws wl)) [dropMsg (droppedCount ws wl)] = 1 := by
      simp
    rw [h1]
    split_ifs with hcol
    · simp [List.count_singleton', dropMsg_ne_aqColWarning]
    · rfl
  · rw [hvalid, herr]
    constructor
    · intro hval hnil
      rw [hnil] at hval
      exact absurd hval (by decide)
    · intro hne
      simp [hne]

/-- Witness for C1 on a dataset where one of two measurements references
an unknown well. -/
theorem validator_result_spec_witness :
    (validateData (some ⟨[], []⟩)
      (some ⟨[[("AQ", "X")]], [("aquifer_id", "AQ"), ("aquifer_name", "AQN")]⟩)
      (some ⟨[[("id", "w1"), ("la", "1"), ("lo", "2")]],
        [("well_id", "id"), ("lat", "la"), ("long", "lo")]⟩)
      (some ⟨[[("wid", "w1")], [("wid", "w2")]],
        [("well_id", "wid"), ("date", "d"), ("wte", "w")]⟩)).droppedMeasurements = 1 ∧
    (validateData (some ⟨[], []⟩)
      (some ⟨[[("AQ", "X")]], [("aquifer_id", "AQ"), ("aquifer_name", "AQN")]⟩)
      (some ⟨[[("id", "w1"), ("la", "1"), ("lo", "2")]],
        [("well_id", "id"), ("lat", "la"), ("long", "lo")]⟩)
      (some ⟨[[("wid", "w1")], [("wid", "w2")]],
        [("well_id", "wid"), ("date", "d"), ("wte", "w")]⟩)).warnings.count (dropMsg 1) = 1 ∧
    ((validateData (some ⟨[], []⟩)
      (some ⟨[[("AQ", "X")]], [("aquifer_id", "AQ"), ("aquifer_name", "AQN")]⟩)
      (some ⟨[[("id", "w1"), ("la", "1"), ("lo", "2")]],
        [("well_id", "id"), ("lat", "la"), ("long", "lo")]⟩)
      (some ⟨[[("wid", "w1")], [("wid", "w2")]],
        [("well_id", "wid"), ("date", "d"), ("wte", "w")]⟩)).isValid = false ↔
     (validateData (some ⟨[], []⟩)
      (some ⟨[[("AQ", "X")]], [("aquifer_id", "AQ"), ("aquifer_name", "AQN")]⟩)
      (some ⟨[[("id", "w1"), ("la", "1"), ("lo", "2")]],
        [("well_id", "id"), ("lat", "la"), ("long", "lo")]⟩)
      (some ⟨[[("wid", "w1")], [("wid", "w2")]],
        [("well_id", "wid"), ("date", "d"), ("wte", "w")]⟩)).errors ≠ []) := by
  have h := validator_result_spec ⟨[], []⟩
    ⟨[[("AQ", "X")]], [("aquifer_id", "AQ"), ("aquifer_name", "AQN")]⟩
    ⟨[[("id", "w1"), ("la", "1"), ("lo", "2")]],
      [("well_id", "id"), ("lat", "la"), ("long", "lo")]⟩
    ⟨[[("wid", "w1")], [("wid", "w2")]],
      [("well_id", "wid"), ("date", "d"), ("wte", "w")]⟩
    (by decide) (by decide) (by decide) (by decide)
    (by decide) (by decide) (by decide) (by decide)
  have hd : (validateData (some ⟨[], []⟩)
      (some ⟨[[("AQ", "X")]], [("aquifer_id", "AQ"), ("aquifer_name", "AQN")]⟩)
      (some ⟨[[("id", "w1"), ("la", "1"), ("lo", "2")]],
        [("well_id", "id"), ("lat", "la"), ("long", "lo")]⟩)
      (some ⟨[[("wid", "w1")], [("wid", "w2")]],
        [("well_id", "wid"), ("date", "d"), ("wte", "w")]⟩)).droppedMeasurements = 1 := by
    rw [h.1]
    decide
  refine ⟨hd, ?_, h.2.2⟩
  have hc := h.2.1 (by rw [hd]; norm_num)
  rw [hd] at hc
  exact hc

/-! ## C7 : stage ordering and exhaustive per-stage error collection -/

/-- C7.  `validateData` short-circuits in stage order while collecting
exhaustively within a stage: with any input file absent it returns exactly
the missing-file errors (one per absent file, all of them) and performs no
mapping or referential work (no warnings, zero dropped); with all files
present but some required mapping empty it returns exactly the
missing-mapping errors across all three mapped files (one per missing
required mapping) and performs no referential work. -/
theorem validator_stage_order (rf af : Option GeoFile) (wf mf : Option CsvFile) :
    (¬ (rf.isSome = true ∧ af.isSome = true ∧ wf.isSome = true ∧ mf.isSome = true) →
      validateData rf af wf mf =
        ⟨false, missingFileErrors rf.isSome af.isSome wf.isSome mf.isSome, [], 0⟩ ∧
      (missingFileErrors rf.isSome af.isSome wf.isSome mf.isSome).length =
        (if rf.isSome then 0 else 1) + (if af.isSome then 0 else 1) +
        (if wf.isSome then 0 else 1) + (if mf.isSome then 0 else 1)) ∧
    (∀ rg aq ws wl, rf = some rg → af = some aq → wf = some ws → mf = some wl →
      checkMappingErrs aq.mapping "aquifer" ++ checkMappingErrs ws.mapping "wells" ++
        checkMappingErrs wl.mapping "waterLevels" ≠ [] →
      validateData rf af wf mf =
        ⟨false, checkMappingErrs aq.mapping "aquifer" ++ checkMappingErrs ws.mapping "wells" ++
          checkMappingErrs wl.mapping "waterLevels", [], 0⟩ ∧
      (checkMappingErrs aq.mapping "aquifer").length =
        (if mget aq.mapping "aquifer_id" = "" then 1 else 0) +
        (if mget aq.mapping "aquifer_name" = "" then 1 else 0) ∧
      (checkMappingErrs ws.mapping "wells").length =
        (if mget ws.mapping "well_id" = "" then 1 else 0) +
        (if mget ws.mapping "lat" = "" then 1 else 0) +
        (if mget ws.mapping "long" = "" then 1 else 0) ∧
      (checkMappingErrs wl.mapping "waterLevels").length =
        (if mget wl.mapping "well_id" = "" then 1 else 0) +
        (if mget wl.mapping "date" = "" then 1 else 0) +
        (if mget wl.mapping "wte" = "" then 1 else 0)) := by
  constructor
  · intro hmiss
    constructor
    · cases rf <;> cases af <;> cases wf <;> cases mf <;>
        first
        | rfl
        | (exfalso; exact hmiss (by simp))
    · cases rf <;> cases af <;> cases wf <;> cases mf <;> rfl
  · intro rg aq ws wl e1 e2 e3 e4 hne
    subst e1
    subst e2
    subst e3
    subst e4
    refine ⟨?_, ?_, ?_, ?_⟩
    · have hv : validateData (some rg) (some aq) (some ws) (some wl) =
          validateFull aq ws wl := rfl
      rw [hv]
      simp only [validateFull]
      rw [if_neg (mt List.isEmpty_iff.mp hne)]
    · by_cases k1 : mget aq.mapping "aquifer_id" = "" <;>
        by_cases k2 : mget aq.mapping "aquifer_name" = "" <;>
          simp [checkMappingErrs, getRequiredColumns, k1, k2]
    · by_cases k1 : mget ws.mapping "well_id" = "" <;>
        by_cases k2 : mget ws.mapping "lat" = "" <;>
          by_cases k3 : mget ws.mapping "long" = "" <;>
            simp [checkMappingErrs, getRequiredColumns, k1, k2, k3]
    · by_cases k1 : mget wl.mapping "well_id" = "" <;>
        by_cases k2 : mget wl.mapping "date" = "" <;>
          by_cases k3 : mget wl.mapping "wte" = "" <;>
            simp [checkMappingErrs, getRequiredColumns, k1, k2, k3]

/-- Witness for C7: three files absent on one side; all present with fully
empty mappings on the other. -/
theorem validator_stage_order_witness :
    validateData none (some ⟨[], []⟩) none none =
      ⟨false, ["Region file is required", "Wells file is required",
        "Water levels file is required"], [], 0⟩ ∧
    validateData (some ⟨[], []⟩) (some ⟨[], []⟩) (some ⟨[], []⟩) (some ⟨[], []⟩) =
      ⟨false, ["aquifer: Missing mapping for Aquifer ID",
        "aquifer: Missing mapping for Aquifer Name",
        "wells: Missing mapping for Well ID",
        "wells: Missing mapping for Latitude",
        "wells: Missing mapping for Longitude",
        "waterLevels: Missing mapping for Well ID",
        "waterLevels: Missing mapping for Date",
        "waterLevels: Missing mapping for Water Table Elevation"], [], 0⟩ := by
  constructor
  · have h := (validator_stage_order none (some ⟨[], []⟩) none none).1 (by simp)
    rw [h.1]
    rfl
  · have h := (validator_stage_order (some ⟨[], []⟩) (some ⟨[], []⟩) (some ⟨[], []⟩)
      (some ⟨[], []⟩)).2 ⟨[], []⟩ ⟨[], []⟩ ⟨[], []⟩ ⟨[], []⟩ rfl rfl rfl rfl (by decide)
    rw [h.1]
    decide

/-! ## C6 : the interval index selected by the linear scan -/

/-- Invariant of the interval-location loop: starting at `i` with every
abscissa up to `i` strictly below the target and enough fuel, the loop
stops at an index at most `n - 2`, every abscissa up to the stop index is
strictly below the target, and either the stop index is `n - 2` or the
next abscissa is at or above the target. -/
theorem findIntervalAux_spec (x : List ℚ) (n : ℕ) (tx : ℚ) :
    ∀ fuel i, i ≤ n - 2 → n - 2 - i ≤ fuel → (∀ j ≤ i, nthQ x j < tx) →
      findIntervalAux x n tx fuel i ≤ n - 2 ∧
      (∀ j ≤ findIntervalAux x n tx fuel i, nthQ x j < tx) ∧
      (findIntervalAux x n tx fuel i = n - 2 ∨
        tx ≤ nthQ x (findIntervalAux x n tx fuel i + 1)) := by
  intro fuel
  induction fuel with
  | zero =>
    intro i h1 h2 h3
    simp only [findIntervalAux]
    exact ⟨h1, h3, Or.inl (by omega)⟩
  | succ f ih =>
    intro i h1 h2 h3
    simp only [findIntervalAux]
    split_ifs with hc
    · exact ih (i + 1) (by omega) (by omega) (fun j hj => by
        rcases Nat.lt_or_ge j (i + 1) with h | h
        · exact h3 j (by omega)
        · have hj1 : j = i + 1 := by omega
          rw [hj1]
          exact hc.2)
    · refine ⟨h1, h3, ?_⟩
      by_cases he : i = n - 2
      · exact Or.inl he
      · exact Or.inr (le_of_not_lt (fun hlt => hc ⟨by omega, hlt⟩))

/-- The interval index selected by both strategies, characterized: for a
strictly inside target it is the unique `i` with `x[i] < t ≤ x[i+1]`,
equivalently the largest `i` with `x[i] < t`. -/
theorem findInterval_spec (x : List ℚ) (n : ℕ) (tx : ℚ) (hn : 2 ≤ n)
    (hmono : StrictIncrOn x n) (h0 : nthQ x 0 < tx) (h1 : tx < nthQ x (n - 1)) :
    findInterval x n tx ≤ n - 2 ∧ nthQ x (findInterval x n tx) < tx ∧
    tx ≤ nthQ x (findInterval x n tx + 1) ∧
    ∀ j, j < n → nthQ x j < tx → j ≤ findInterval x n tx := by
  obtain ⟨ha, hb, hcor⟩ := findIntervalAux_spec x n tx n 0 (by omega) (by omega)
    (fun j hj => by
      have hj0 : j = 0 := by omega
      rw [hj0]
      exact h0)
  have hub : tx ≤ nthQ x (findIntervalAux x n tx n 0 + 1) := by
    rcases hcor with he | he
    · rw [he, show n - 2 + 1 = n - 1 from by omega]
      exact le_of_lt h1
    · exact he
  refine ⟨ha, hb _ le_rfl, hub, ?_⟩
  intro j hj hxj
  by_contra hgt
  push_neg at hgt
  have hle : nthQ x (findIntervalAux x n tx n 0 + 1) ≤ nthQ x j := by
    rcases Nat.lt_or_ge (findInterval x n tx + 1) j with hlt | hge
    · exact le_of_lt (nthQ_mono x n hmono (findInterval x n tx + 1) j hlt hj)
    · have hj1 : j = findInterval x n tx + 1 := by omega
      rw [hj1]
      exact le_rfl
  exact absurd hxj (not_lt.mpr (le_trans hub hle))

/-- Counterexample to C6 as stated: with `x = [0,1,2]` and target `1`
(strictly inside), the scan stops at index 0, yet the largest `i` with
`x[i] ≤ t < x[i+1]` is 1 (index 0 does not even satisfy the predicate). -/
theorem findInterval_not_largest :
    findInterval [0, 1, 2] 3 1 = 0 ∧
    (nthQ [0, 1, 2] 1 ≤ 1 ∧ (1 : ℚ) < nthQ [0, 1, 2] 2) ∧
    ¬ (nthQ [0, 1, 2] 0 ≤ 1 ∧ (1 : ℚ) < nthQ [0, 1, 2] 1) := by decide

/-- C6 as amended.  Both strategies evaluate a strictly inside target in
the interval returned by `findInterval` (see `interpolatePCHIP_A` and
`interpolatePCHIP_B`), and that index is at most `n - 2` and is the
largest `i` such that `x[i] < t` — equivalently the unique `i` with
`x[i] < t ≤ x[i+1]` — rather than the largest `i` with
`x[i] ≤ t < x[i+1]`. -/
theorem findInterval_selects (x : List ℚ) (t : ℚ) (hn : 3 ≤ x.length)
    (hmono : StrictIncrOn x x.length) (h0 : nthQ x 0 < t)
    (h1 : t < nthQ x (x.length - 1)) :
    findInterval x x.length t ≤ x.length - 2 ∧
    nthQ x (findInterval x x.length t) < t ∧
    t ≤ nthQ x (findInterval x x.length t + 1) ∧
    ∀ j, j < x.length → nthQ x j < t → j ≤ findInterval x x.length t :=
  findInterval_spec x x.length t (by omega) hmono h0 h1

/-- Witness for the amended C6 at `x = [0,1,2]`, target 1. -/
theorem findInterval_selects_witness :
    findInterval [0, 1, 2] 3 1 ≤ 1 ∧
    nthQ [0, 1, 2] (findInterval [0, 1, 2] 3 1) < 1 ∧
    (1 : ℚ) ≤ nthQ [0, 1, 2] (findInterval [0, 1, 2] 3 1 + 1) ∧
    ∀ j, j < 3 → nthQ [0, 1, 2] j < 1 → j ≤ findInterval [0, 1, 2] 3 1 :=
  findInterval_selects [0, 1, 2] 1 (by decide) (by decide) (by decide) (by decide)

/-! ## C3 : no overshoot at a sign-change interval of Strategy A -/

/-- The inside branch of `hermiteAt`: when neither clamp fires and the
located interval has non-zero length, the result is the Hermite basis
block on that interval. -/
theorem hermiteAt_inside (x y : List ℚ) (n : ℕ) (m : ℕ → ℚ) (tx : ℚ)
    (h0 : ¬ tx ≤ nthQ x 0) (h1 : ¬ nthQ x (n - 1) ≤ tx)
    (hh : ¬ nthQ x (findInterval x n tx + 1) - nthQ x (findInterval x n tx) = 0) :
    hermiteAt x y n m tx =
      hermiteBasisVal (nthQ y (findInterval x n tx)) (nthQ y (findInterval x n tx + 1))
        (nthQ x (findInterval x n tx + 1) - nthQ x (findInterval x n tx))
        (m (findInterval x n tx)) (m (findInterval x n tx + 1))
        ((tx - nthQ x (findInterval x n tx)) /
          (nthQ x (findInterval x n tx + 1) - nthQ x (findInterval x n tx))) := by
  simp only [hermiteAt]
  rw [if_neg h0, if_neg h1, if_neg hh]

/-- With both tangents zero, the Hermite basis block is the convex
combination `(1-c) y[i] + c y[i+1]` with `c = 3t² - 2t³ ∈ [0,1]`, hence
bounded by the two ordinates. -/
theorem hermiteBasisVal_zero_tangents (yi yi1 hi t : ℚ) (h0 : 0 ≤ t) (h1 : t ≤ 1) :
    min yi yi1 ≤ hermiteBasisVal yi yi1 hi 0 0 t ∧
    hermiteBasisVal yi yi1 hi 0 0 t ≤ max yi yi1 := by
  have hval : hermiteBasisVal yi yi1 hi 0 0 t =
      (1 - (-2 * t ^ 3 + 3 * t ^ 2)) * yi + (-2 * t ^ 3 + 3 * t ^ 2) * yi1 := by
    rw [hermiteBasisVal]
    ring
  set c := -2 * t ^ 3 + 3 * t ^ 2 with hc
  have hc0 : 0 ≤ c := by
    nlinarith [mul_nonneg (mul_nonneg h0 h0) (show (0 : ℚ) ≤ 3 - 2 * t by linarith)]
  have hc1 : c ≤ 1 := by
    nlinarith [mul_nonneg (sq_nonneg (1 - t)) (show (0 : ℚ) ≤ 1 + 2 * t by linarith)]
  rw [hval]
  rcases le_total yi yi1 with h | h
  · rw [min_eq_left h, max_eq_right h]
    constructor
    · nlinarith [mul_nonneg hc0 (sub_nonneg.mpr h)]
    · nlinarith [mul_nonneg (sub_nonneg.mpr hc1) (sub_nonneg.mpr h)]
  · rw [min_eq_right h, max_eq_left h]
    constructor
    · nlinarith [mul_nonneg (sub_nonneg.mpr hc1) (sub_nonneg.mpr h)]
    · nlinarith [mul_nonneg hc0 (sub_nonneg.mpr h)]

/-- At normalized parameter 1 the Hermite basis block returns the right
ordinate exactly, whatever the tangents. -/
theorem hermiteBasisVal_one (yi yi1 hi mi mi1 : ℚ) :
    hermiteBasisVal yi yi1 hi mi mi1 1 = yi1 := by
  rw [hermiteBasisVal]
  ring

/-- C3.  For Strategy A on strictly increasing samples, a target in an
interval `[x[i], x[i+1]]` whose two endpoint tangents are forced to zero
(adjacent secants disagree in sign or vanish on each side) evaluates to a
value within `[min(y[i], y[i+1]), max(y[i], y[i+1])]` — no overshoot at a
sign-change interval. -/
theorem strategyA_no_overshoot (x y : List ℚ) (i : ℕ) (t : ℚ)
    (hy : y.length = x.length) (hn : 3 ≤ x.length)
    (hmono : StrictIncrOn x x.length)
    (hi1 : 1 ≤ i) (hi2 : i + 2 ≤ x.length - 1)
    (hs1 : deltaQ x y (i - 1) * deltaQ x y i ≤ 0)
    (hs2 : deltaQ x y i * deltaQ x y (i + 1) ≤ 0)
    (ht1 : nthQ x i ≤ t) (ht2 : t ≤ nthQ x (i + 1)) :
    min (nthQ y i) (nthQ y (i + 1)) ≤ nthQ (interpolatePCHIP_A x y [t]) 0 ∧
    nthQ (interpolatePCHIP_A x y [t]) 0 ≤ max (nthQ y i) (nthQ y (i + 1)) := by
  have hx0 : nthQ x 0 < t :=
    lt_of_lt_of_le (nthQ_mono x x.length hmono 0 i (by omega) (by omega)) ht1
  have hxn : t < nthQ x (x.length - 1) :=
    lt_of_le_of_lt ht2 (nthQ_mono x x.length hmono (i + 1) (x.length - 1)
      (by omega) (by omega))
  have hval : nthQ (interpolatePCHIP_A x y [t]) 0 =
      hermiteAt x y x.length (tangentA x y x.length) t := by
    simp only [interpolatePCHIP_A]
    rw [if_neg (by omega)]
    rfl
  rw [hval]
  obtain ⟨hidx1, hidx2, hidx3, _⟩ :=
    findInterval_spec x x.length t (by omega) hmono hx0 hxn
  set idx := findInterval x x.length t with hidxdef
  have hidx_ge : i ≤ idx + 1 := by
    by_contra hlt
    push_neg at hlt
    have hx' : nthQ x (idx + 1) < nthQ x i :=
      nthQ_mono x x.length hmono (idx + 1) i hlt (by omega)
    exact absurd ht1 (not_le.mpr (lt_of_le_of_lt hidx3 hx'))
  have hidx_le : idx ≤ i := by
    by_contra hlt
    push_neg at hlt
    have hxi1 : nthQ x (i + 1) ≤ nthQ x idx := by
      rcases Nat.lt_or_ge (i + 1) idx with hl | hg
      · exact le_of_lt (nthQ_mono x x.length hmono (i + 1) idx hl (by omega))
      · have he : i + 1 = idx := by omega
        rw [he]
    exact absurd hidx2 (not_lt.mpr (le_trans ht2 hxi1))
  have hmi : tangentA x y x.length i = 0 := by
    rw [tangentA, if_neg (by omega : ¬ i = 0), if_neg (by omega : ¬ i = x.length - 1),
      if_pos hs1]
  have hmi1 : tangentA x y x.length (i + 1) = 0 := by
    rw [tangentA, if_neg (by omega : ¬ i + 1 = 0),
      if_neg (by omega : ¬ i + 1 = x.length - 1),
      show i + 1 - 1 = i from by omega, if_pos hs2]
  rcases eq_or_lt_of_le hidx_le with hcase | hcase
  · have hipos : 0 < nthQ x (i + 1) - nthQ x i :=
      sub_pos.mpr (hmono i (by omega))
    have hh : ¬ nthQ x (idx + 1) - nthQ x idx = 0 := by
      rw [hcase]
      exact ne_of_gt hipos
    rw [hermiteAt_inside x y x.length (tangentA x y x.length) t
      (not_le.mpr hx0) (not_le.mpr hxn) (hidxdef ▸ hh), ← hidxdef, hcase, hmi, hmi1]
    have htq0 : 0 ≤ (t - nthQ x i) / (nthQ x (i + 1) - nthQ x i) :=
      div_nonneg (by linarith) (le_of_lt hipos)
    have htq1 : (t - nthQ x i) / (nthQ x (i + 1) - nthQ x i) ≤ 1 := by
      rw [div_le_one hipos]
      linarith
    exact hermiteBasisVal_zero_tangents _ _ _ _ htq0 htq1
  · have hidx_eq : idx + 1 = i := by omega
    have hipos : 0 < nthQ x (idx + 1) - nthQ x idx :=
      sub_pos.mpr (hmono idx (by omega))
    have hh : ¬ nthQ x (idx + 1) - nthQ x idx = 0 := ne_of_gt hipos
    have ht_eq : t = nthQ x (idx + 1) := by
      refine le_antisymm hidx3 ?_
      rw [hidx_eq]
      exact ht1
    rw [hermiteAt_inside x y x.length (tangentA x y x.length) t
      (not_le.mpr hx0) (not_le.mpr hxn) (hidxdef ▸ hh), ← hidxdef]
    have htq : (t - nthQ x idx) / (nthQ x (idx + 1) - nthQ x idx) = 1 := by
      rw [ht_eq]
      exact div_self hh
    rw [htq, hermiteBasisVal_one, hidx_eq]
    exact ⟨min_le_left _ _, le_max_left _ _⟩

/-- Witness for C3 on zig-zag data `y = [0,1,0,1]` over `x = [0,1,2,3]`,
interval `[x[1], x[2]]`, target 1. -/
theorem strategyA_no_overshoot_witness :
    min (nthQ [0, 1, 0, 1] 1) (nthQ [0, 1, 0, 1] 2) ≤
      nthQ (interpolatePCHIP_A [0, 1, 2, 3] [0, 1, 0, 1] [1]) 0 ∧
    nthQ (interpolatePCHIP_A [0, 1, 2, 3] [0, 1, 0, 1] [1]) 0 ≤
      max (nthQ [0, 1, 0, 1] 1) (nthQ [0, 1, 0, 1] 2) := by
  have d0 : deltaQ [0, 1, 2, 3] [0, 1, 0, 1] 0 = 1 := by norm_num [deltaQ, nthQ]
  have d1 : deltaQ [0, 1, 2, 3] [0, 1, 0, 1] 1 = -1 := by norm_num [deltaQ, nthQ]
  have d2 : deltaQ [0, 1, 2, 3] [0, 1, 0, 1] 2 = 1 := by norm_num [deltaQ, nthQ]
  exact strategyA_no_overshoot [0, 1, 2, 3] [0, 1, 0, 1] 1 1 rfl (by decide) (by decide)
    (by decide) (by decide)
    (by rw [show (1 : ℕ) - 1 = 0 from rfl, d0, d1]; norm_num)
    (by rw [d1, d2]; norm_num) (by decide) (by decide)
